import Mathlib

/-!
Verification of the dependency-resolution and source-loading layer of
`rinja_derive` (file `src/rinja_derive/src/input.rs`).

The development shallowly embeds three parts of the file:

* the memoizing source cache `get_template_source` (file contents are
  lists of characters; the process-wide cache is threaded explicitly as an
  association list; the third result component is ghost instrumentation
  recording which paths were read from the filesystem);
* the dependency walker `find_used_templates` together with its local
  closure `add_to_check` (the external collaborators — path resolution
  from `config.rs`, the parser crate's `Parsed`/`Node`, and the source
  cache — are supplied as an explicit environment of functions; node
  kinds follow the parser's `Node` enum as matched by the walker);
* the `extension` helper (Rust's `Path::extension`/`Path::file_stem`
  semantics — split the file name at its last dot, where a dot in the
  leading position does not count — are spelled out on lists of
  characters).

Loops that are `while` loops in Rust are embedded with an explicit fuel
parameter; `none` means the fuel was exhausted before the loop finished.
-/

namespace Rinja

/-! ### Source cache (`get_template_source`) -/

/-- A cache entry: the file either loaded (trimmed text) or failed with a
message, mirroring the local `enum Outcome` in `get_template_source`. -/
inductive Outcome where
  | Success (data : List Char)
  | Failure (msg : String)
deriving DecidableEq

/-- Attribution of a load to the referencing directive: the referencing
template's path, its source text, and the directive's span, mirroring the
`import_from: Option<(&Arc<Path>, &str, &str)>` triple. -/
structure FileInfo where
  node_file : String
  file_source : String
  node_source : String
deriving DecidableEq

/-- A `CompileError` as built by `get_template_source`: a message plus the
optional attribution built from the caller's `import_from`. -/
structure LoadError where
  msg : String
  file_info : Option FileInfo
deriving DecidableEq

/-- The trailing-newline normalization performed on a successful read:
`if source.ends_with('\n') { source.pop(); }`. -/
def trim_newline (source : List Char) : List Char :=
  if source.getLast? = some '\n' then source.dropLast else source

/-- The message stored on a failed read:
`format!("unable to open template file '{}': {err}", tpl_path)`. -/
def template_error_msg (tpl_path : String) (err : String) : String :=
  "unable to open template file '" ++ tpl_path ++ "': " ++ err

/-- The outcome the filesystem determines for a path (what a cache miss
computes and stores). -/
def fs_outcome (fs : String → Except String (List Char)) (tpl_path : String) : Outcome :=
  match fs tpl_path with
  | .ok source => .Success (trim_newline source)
  | .error err => .Failure (template_error_msg tpl_path err)

/-- `get_template_source`, with the process-wide cache threaded
explicitly.  Result components: the call's result, the cache afterwards,
and (ghost) the list of paths read from the filesystem by this call.
On a hit the cached outcome is returned, a failure being rebuilt from the
cached message and the *current* caller's attribution; on a miss the file
is read, trimmed on success, and the outcome stored. -/
def get_template_source (fs : String → Except String (List Char))
    (cache : List (String × Outcome)) (tpl_path : String)
    (import_from : Option FileInfo) :
    (Except LoadError (List Char)) × List (String × Outcome) × List String :=
  match cache.lookup tpl_path with
  | some (.Success data) => (.ok data, cache, [])
  | some (.Failure msg) => (.error ⟨msg, import_from⟩, cache, [])
  | none =>
    match fs tpl_path with
    | .ok source =>
      let source := trim_newline source
      (.ok source, (tpl_path, .Success source) :: cache, [tpl_path])
    | .error err =>
      let msg := template_error_msg tpl_path err
      (.error ⟨msg, import_from⟩, (tpl_path, .Failure msg) :: cache, [tpl_path])

/-- A sequence of `get_template_source` calls sharing the cache.  The
single-flight guard of the cache serializes the callers racing on one
key, so an arbitrary interleaving of N concurrent callers is modelled as
an arbitrary sequence of atomic calls.  Results: the per-call results in
order, the final cache, and all filesystem reads performed. -/
def run_calls (fs : String → Except String (List Char)) :
    List (String × Option FileInfo) → List (String × Outcome) →
    List (Except LoadError (List Char)) × List (String × Outcome) × List String
  | [], cache => ([], cache, [])
  | (p, att) :: rest, cache =>
    let step := get_template_source fs cache p att
    let next := run_calls fs rest step.2.1
    (step.1 :: next.1, next.2.1, step.2.2 ++ next.2.2)

/-- The result a cached outcome produces for a caller with attribution
`att`. -/
def outcome_result (o : Outcome) (att : Option FileInfo) :
    Except LoadError (List Char) :=
  match o with
  | .Success d => .ok d
  | .Failure m => .error ⟨m, att⟩

/-- A call result with the attribution erased: the loaded bytes on
success, the error message alone on failure. -/
def result_core : Except LoadError (List Char) → Except String (List Char)
  | .ok d => .ok d
  | .error e => .error e.msg

/-- The attribution-free core of an outcome. -/
def outcome_core : Outcome → Except String (List Char)
  | .Success d => .ok d
  | .Failure m => .error m

/-! ### The `extension` helper

Rust's `Path::extension` splits the file name (the part after the last
path separator) at its last `.`; a lone leading dot does not start an
extension.  `Path::file_stem` is the complementary part. -/

/-- Split a list at its last dot: `some (before, after)`, preferring a
split found in the tail (i.e. a later dot). -/
def dotSplitAux : List Char → Option (List Char × List Char)
  | [] => none
  | c :: rest =>
    match dotSplitAux rest with
    | some (s, e) => some (c :: s, e)
    | none => if c = '.' then some ([], rest) else none

/-- Split a file name into stem and extension at the last dot, where a
dot in leading position does not count (hidden files have no extension). -/
def dotSplit : List Char → Option (List Char × List Char)
  | [] => none
  | c :: rest =>
    match dotSplitAux rest with
    | some (s, e) => some (c :: s, e)
    | none => none

/-- The file-name component of a path: everything after the last `/`. -/
def file_name (p : List Char) : List Char :=
  (p.reverse.takeWhile (fun c => c != '/')).reverse

/-- `Path::file_stem` on a file name: the part before the last counted
dot, or the whole name when there is none. -/
def file_stem (name : List Char) : List Char :=
  match dotSplit name with
  | some (s, _) => s
  | none => name

/-- `const JINJA_EXTENSIONS: [&str; 3] = ["j2", "jinja", "jinja2"];` -/
def JINJA_EXTENSIONS : List (List Char) :=
  [['j', '2'], ['j', 'i', 'n', 'j', 'a'], ['j', 'i', 'n', 'j', 'a', '2']]

/-- `fn extension(path: &Path) -> Option<&str>`: the path's extension,
except that a jinja extension is skipped in favour of the extension of
the file stem when the stem has one. -/
def extension (path : List Char) : Option (List Char) :=
  match dotSplit (file_name path) with
  | none => none
  | some (_, ext) =>
    if ext ∈ JINJA_EXTENSIONS then
      match dotSplit (file_name (file_stem (file_name path))) with
      | some (_, e2) => some e2
      | none => some ext
    else some ext

/-! ### The dependency walker (`find_used_templates`)

Template paths and source texts are `String`s.  The parser's `Node` enum
is embedded with exactly the constructors and child lists the walker
matches on; node payloads irrelevant to the walk (expressions, literals,
spans) are dropped.  The external collaborators (`config.find_template`,
`get_template_source`, `syntax.parse`) are an explicit environment of
deterministic functions; their errors are strings. -/

/-- The parser's node kinds, as consumed by `find_used_templates`. -/
inductive Node where
  | Lit
  | Comment
  | Expr
  | Call
  | Let
  | Raw
  | Continue
  | Break
  | Extends (path : String)
  | Import (path : String)
  | Include (path : String)
  | MacroDef (nodes : List Node)
  | FilterBlock (nodes : List Node)
  | BlockDef (nodes : List Node)
  | If (branches : List (List Node))
  | Loop (body : List Node) (else_nodes : List Node)
  | Match (arms : List (List Node))

/-- A parsed template: its source text and its node tree. -/
structure Parsed where
  source : String
  nodes : List Node

/-- The placeholder `Arc::default()` inserted to claim a path. -/
def default_parsed : Parsed := ⟨"", []⟩

/-- The walker's collaborators: `find_template (literal, relative-to)`,
the source cache, and the parser. -/
structure Env where
  find_template : String → Option String → Except String String
  get_source : String → Except String String
  parse : String → Except String (List Node)

/-- Errors surfaced by the walker: a plain message, or a cyclic
dependency carrying the recorded `extends` edge chain (the message is a
deterministic rendering of that chain, see `cyclic_message`). -/
inductive CompileError where
  | msg (s : String)
  | cyclic (chain : List (String × String))
deriving DecidableEq

/-- The mutable state of one `find_used_templates` call: the result map,
the `dependency_graph` of `extends` edges, the `check` stack of scheduled
`(path, source)` items (head = top of stack), and — ghost — the list of
`get_template_source` fetches performed, in order. -/
structure WState where
  map : List (String × Parsed)
  graph : List (String × String)
  check : List (String × String)
  loads : List String

/-- `HashMap::insert`: replace the binding if the key is present,
otherwise append it. -/
def insertMap : List (String × Parsed) → String → Parsed → List (String × Parsed)
  | [], k, v => [(k, v)]
  | (k', v') :: rest, k, v =>
    if k' = k then (k', v) :: rest else (k', v') :: insertMap rest k v

/-- The closure `add_to_check`: if `new_path` has no entry in the map,
fetch its source, push it on the `check` stack, and claim the path with a
placeholder entry. -/
def add_to_check (env : Env) (st : WState) (new_path : String) :
    Except CompileError WState :=
  match st.map.lookup new_path with
  | some _ => .ok st
  | none =>
    match env.get_source new_path with
    | .error e => .error (.msg e)
    | .ok source =>
      .ok { st with
        check := (new_path, source) :: st.check,
        map := insertMap st.map new_path default_parsed,
        loads := st.loads ++ [new_path] }

/-- One node of the sweep over template `cur`.  `top` tells whether the
node list being scanned is the root's direct child list.  Returns the
updated state and the child node lists pushed onto the nested stack, in
push order. -/
def processNode (env : Env) (cur : String) (top : Bool) (st : WState) :
    Node → Except CompileError (WState × List (List Node))
  | .Extends p =>
    if top then
      match env.find_template p (some cur) with
      | .error e => .error (.msg e)
      | .ok tgt =>
        if cur = tgt then
          .error (.cyclic (st.graph ++ [(cur, tgt)]))
        else if (cur, tgt) ∈ st.graph then
          .error (.cyclic st.graph)
        else
          match add_to_check env { st with graph := st.graph ++ [(cur, tgt)] } tgt with
          | .error e => .error e
          | .ok st' => .ok (st', [])
    else .ok (st, [])
  | .MacroDef ns => if top then .ok (st, [ns]) else .ok (st, [])
  | .Import p =>
    if top then
      match env.find_template p (some cur) with
      | .error e => .error (.msg e)
      | .ok tgt =>
        match add_to_check env st tgt with
        | .error e => .error e
        | .ok st' => .ok (st', [])
    else .ok (st, [])
  | .FilterBlock ns => .ok (st, [ns])
  | .Include p =>
    match env.find_template p (some cur) with
    | .error e => .error (.msg e)
    | .ok tgt =>
      match add_to_check env st tgt with
      | .error e => .error e
      | .ok st' => .ok (st', [])
  | .BlockDef ns => .ok (st, [ns])
  | .If branches => .ok (st, branches)
  | .Loop body els => .ok (st, [body, els])
  | .Match arms => .ok (st, arms)
  | .Lit => .ok (st, [])
  | .Comment => .ok (st, [])
  | .Expr => .ok (st, [])
  | .Call => .ok (st, [])
  | .Let => .ok (st, [])
  | .Raw => .ok (st, [])
  | .Continue => .ok (st, [])
  | .Break => .ok (st, [])

/-- Push a list of bodies (in push order) onto the nested stack (head =
top of stack): a later push ends up closer to the head, matching
`Vec::push`/`Vec::pop`. -/
def pushAll (nested : List (List Node)) (pushes : List (List Node)) :
    List (List Node) :=
  pushes.foldl (fun acc l => l :: acc) nested

/-- The `for n in nodes` loop of one sweep: process the nodes in order,
threading state and the shared nested stack; the first error aborts. -/
def processNodes (env : Env) (cur : String) (top : Bool) :
    List Node → WState → List (List Node) →
    Except CompileError (WState × List (List Node))
  | [], st, nested => .ok (st, nested)
  | n :: rest, st, nested =>
    match processNode env cur top st n with
    | .error e => .error e
    | .ok (st', pushes) => processNodes env cur top rest st' (pushAll nested pushes)

/-- The `while let Some(nodes) = nested.pop()` loop after the top-level
sweep: every remaining node list is swept with `top = false`.  Fueled;
`none` means the fuel ran out. -/
def nestedLoop (env : Env) (cur : String) :
    Nat → List (List Node) → WState → Option (Except CompileError WState)
  | 0, _, _ => none
  | _ + 1, [], st => some (.ok st)
  | fuel + 1, nodes :: rest, st =>
    match processNodes env cur false nodes st rest with
    | .error e => some (.error e)
    | .ok (st', nested') => nestedLoop env cur fuel nested' st'

/-- Process one scheduled template: parse it, sweep its root node list
with `top = true`, sweep all nested bodies, then insert the parse under
its path — only after the whole sweep. -/
def processTemplate (env : Env) (fuel : Nat) (path source : String)
    (st : WState) : Option (Except CompileError WState) :=
  match env.parse source with
  | .error e => some (.error (.msg e))
  | .ok nodes =>
    match processNodes env path true nodes st [] with
    | .error e => some (.error e)
    | .ok (st', nested) =>
      match nestedLoop env path fuel nested st' with
      | none => none
      | some (.error e) => some (.error e)
      | some (.ok st'') =>
        some (.ok { st'' with map := insertMap st''.map path ⟨source, nodes⟩ })

/-- The `while let Some((path, source, _)) = check.pop()` driver loop. -/
def checkLoop (env : Env) : Nat → WState → Option (Except CompileError WState)
  | 0, _ => none
  | fuel + 1, st =>
    match st.check with
    | [] => some (.ok st)
    | (path, source) :: rest =>
      match processTemplate env fuel path source { st with check := rest } with
      | none => none
      | some (.error e) => some (.error e)
      | some (.ok st') => checkLoop env fuel st'

/-- `find_used_templates` up to its final state: resolve the entry's
source (inline `Source::Source` text, or a fetch for `Source::Path`),
seed the `check` stack, and drive the loop. -/
def find_raw (env : Env) (fuel : Nat) (entry : String)
    (entry_source : Option String) : Option (Except CompileError WState) :=
  match entry_source with
  | some s =>
    checkLoop env fuel { map := [], graph := [], check := [(entry, s)], loads := [] }
  | none =>
    match env.get_source entry with
    | .error e => some (.error (.msg e))
    | .ok s =>
      checkLoop env fuel
        { map := [], graph := [], check := [(entry, s)], loads := [entry] }

/-- What the enclosing resolution delivers.  Modelled from the spec: the
caller outside this file receives either the completed map or the error
alone — a failing run's partially-filled map is discarded. -/
def find_used_templates (env : Env) (fuel : Nat) (entry : String)
    (entry_source : Option String) :
    Option (Except CompileError (List (String × Parsed))) :=
  match find_raw env fuel entry entry_source with
  | none => none
  | some (.error e) => some (.error e)
  | some (.ok st) => some (.ok st.map)

/-- One edge of a cyclic-dependency diagnostic, rendered as
`format!("{:#?} --> {:#?}", e.0, e.1)` renders `Arc<Path>` pairs. -/
def render_dependency (e : String × String) : String :=
  "\"" ++ e.1 ++ "\" --> \"" ++ e.2 ++ "\""

/-- The lines of the `cyclic_graph_error` message: every recorded edge in
traversal order. -/
def cyclic_message (chain : List (String × String)) : List String :=
  chain.map render_dependency

/-! ### Concrete environments used as inputs for the claims -/

/-- A filesystem with one template `tpl` containing `bar`. -/
def fs_demo : String → Except String (List Char) := fun q =>
  if q = "tpl" then .ok ['b', 'a', 'r'] else .error "not found"

/-- A sample attribution triple. -/
def att_demo : FileInfo := ⟨"ref.html", "ref-source", "ref-span"⟩

/-- Two callers for the same path, the second from a different
referencing directive. -/
def calls_demo : List (String × Option FileInfo) :=
  [("tpl", none), ("tpl", some att_demo)]

/-- A filesystem whose file `one` ends in one newline and whose file
`two` ends in two. -/
def fs_nl : String → Except String (List Char) := fun q =>
  if q = "one" then .ok ['a', '\n']
  else if q = "two" then .ok ['a', '\n', '\n']
  else .error "not found"

/-- A filesystem on which every read fails. -/
def fs_missing : String → Except String (List Char) := fun _ =>
  .error "io error"

/-- Templates A (`{% extends "B" %}`) and B (`{% extends "A" %}`). -/
def env_mutual_extends : Env where
  find_template := fun lit _ => .ok lit
  get_source := fun p =>
    if p = "A" then .ok "A-src"
    else if p = "B" then .ok "B-src"
    else .error "not found"
  parse := fun s =>
    if s = "A-src" then .ok [.Extends "B"]
    else if s = "B-src" then .ok [.Extends "A"]
    else .error "syntax error"

/-- Template A whose content is `{% extends "A" %}`. -/
def env_self_extends : Env where
  find_template := fun lit _ => .ok lit
  get_source := fun p =>
    if p = "A" then .ok "A-src" else .error "not found"
  parse := fun s =>
    if s = "A-src" then .ok [.Extends "A"] else .error "syntax error"

/-- Templates A (`{% include "B" %}`) and B (`{% include "A" %}`). -/
def env_mutual_include : Env where
  find_template := fun lit _ => .ok lit
  get_source := fun p =>
    if p = "A" then .ok "A-src"
    else if p = "B" then .ok "B-src"
    else .error "not found"
  parse := fun s =>
    if s = "A-src" then .ok [.Include "B"]
    else if s = "B-src" then .ok [.Include "A"]
    else .error "syntax error"

/-- Template A whose content is `{% include "A" %}`. -/
def env_self_include : Env where
  find_template := fun lit _ => .ok lit
  get_source := fun p =>
    if p = "A" then .ok "A-src" else .error "not found"
  parse := fun s =>
    if s = "A-src" then .ok [.Include "A"] else .error "syntax error"

/-- Template A whose only node is an `{% if %}` block containing
`{% extends "B" %}`; B does not even exist on disk. -/
def env_nested_extends : Env where
  find_template := fun lit _ => .ok lit
  get_source := fun p =>
    if p = "A" then .ok "A-src" else .error "not found"
  parse := fun s =>
    if s = "A-src" then .ok [.If [[.Extends "B"]]] else .error "syntax error"

/-- Template A includes B, but B's source cannot be loaded. -/
def env_midway_failure : Env where
  find_template := fun lit _ => .ok lit
  get_source := fun p =>
    if p = "A" then .ok "A-src" else .error "B not found"
  parse := fun s =>
    if s = "A-src" then .ok [.Include "B"] else .error "syntax error"

/-- A walker state about to process A while the map already holds an
entry accumulated earlier in the run. -/
def st_midway : WState :=
  { map := [("X", ⟨"x-src", []⟩)], graph := [], check := [("A", "A-src")],
    loads := ["X", "A"] }

/-! ### Lemmas about the cache -/

theorem result_core_outcome (o : Outcome) (att : Option FileInfo) :
    result_core (outcome_result o att) = outcome_core o := by
  cases o <;> rfl

theorem get_template_source_hit (fs : String → Except String (List Char))
    (cache : List (String × Outcome)) (p : String) (att : Option FileInfo)
    (o : Outcome) (h : cache.lookup p = some o) :
    get_template_source fs cache p att = (outcome_result o att, cache, []) := by
  cases o <;> simp [get_template_source, h, outcome_result]

theorem get_template_source_miss (fs : String → Except String (List Char))
    (cache : List (String × Outcome)) (p : String) (att : Option FileInfo)
    (h : cache.lookup p = none) :
    get_template_source fs cache p att =
      (outcome_result (fs_outcome fs p) att, (p, fs_outcome fs p) :: cache, [p]) := by
  cases hfs : fs p <;>
    simp [get_template_source, h, fs_outcome, hfs, outcome_result]

theorem trim_newline_concat (s : List Char) :
    trim_newline (s ++ ['\n']) = s := by
  simp [trim_newline]

theorem trim_newline_of_not_newline (s : List Char)
    (h : s.getLast? ≠ some '\n') : trim_newline s = s := by
  simp [trim_newline, h]

/-- Invariant-carrying induction over a sequence of calls: starting from
a cache whose entry for `p` (if any) matches the filesystem outcome, the
whole run reads `p` at most once more (not at all if already cached), and
every call for `p` observes the attribution-free core of the filesystem
outcome for `p`. -/
theorem run_calls_spec (fs : String → Except String (List Char)) (p : String)
    (calls : List (String × Option FileInfo)) :
    ∀ cache : List (String × Outcome),
      (cache.lookup p = none ∨ cache.lookup p = some (fs_outcome fs p)) →
      (run_calls fs calls cache).2.2.count p ≤
          (if cache.lookup p = none then 1 else 0) ∧
        ∀ pr ∈ calls.zip (run_calls fs calls cache).1, pr.1.1 = p →
          result_core pr.2 = outcome_core (fs_outcome fs p) := by
  induction calls with
  | nil => intro cache _; simp [run_calls]
  | cons head rest ih =>
    obtain ⟨q, att⟩ := head
    intro cache hinv
    cases hq : cache.lookup q with
    | some o =>
      have hstep := get_template_source_hit fs cache q att o hq
      obtain ⟨ih1, ih2⟩ := ih cache hinv
      constructor
      · simpa [run_calls, hstep] using ih1
      · intro pr hpr hp
        simp only [run_calls, hstep, List.zip_cons_cons, List.mem_cons] at hpr
        rcases hpr with rfl | hpr
        · simp only at hp
          subst hp
          rcases hinv with hnone | hsome
          · rw [hq] at hnone; exact absurd hnone (by simp)
          · rw [hq] at hsome
            obtain rfl : o = fs_outcome fs q := by
              simpa using hsome
            simp [result_core_outcome]
        · exact ih2 pr hpr hp
    | none =>
      have hstep := get_template_source_miss fs cache q att hq
      have hinv' :
          ((q, fs_outcome fs q) :: cache).lookup p = none ∨
            ((q, fs_outcome fs q) :: cache).lookup p = some (fs_outcome fs p) := by
        by_cases hqp : q = p
        · subst hqp
          right; simp [List.lookup_cons]
        · have : ((q, fs_outcome fs q) :: cache).lookup p = cache.lookup p := by
            simp [List.lookup_cons, beq_false_of_ne (fun h => hqp h.symm)]
          rw [this]; exact hinv
      obtain ⟨ih1, ih2⟩ := ih ((q, fs_outcome fs q) :: cache) hinv'
      have hsplit : (run_calls fs ((q, att) :: rest) cache).2.2 =
          [q] ++ (run_calls fs rest ((q, fs_outcome fs q) :: cache)).2.2 := by
        simp [run_calls, hstep]
      constructor
      · rw [hsplit, List.count_append]
        by_cases hqp : q = p
        · subst hqp
          have hbound : (if ((q, fs_outcome fs q) :: cache).lookup q = none
              then 1 else 0) = 0 := by
            simp [List.lookup_cons]
          rw [hbound] at ih1
          have hone : List.count q [q] = 1 := by simp
          have hif : (if (none : Option Outcome) = none then 1 else 0) = 1 := by
            simp
          rw [hone, hq, hif]
          omega
        · have hchange : ((q, fs_outcome fs q) :: cache).lookup p = cache.lookup p := by
            simp [List.lookup_cons, beq_false_of_ne (fun h => hqp h.symm)]
          rw [hchange] at ih1
          have hzero : List.count p [q] = 0 :=
            List.count_eq_zero.mpr
              (fun h => hqp (List.mem_singleton.mp h).symm)
          rw [hzero]
          omega
      · intro pr hpr hp
        simp only [run_calls, hstep, List.zip_cons_cons, List.mem_cons] at hpr
        rcases hpr with rfl | hpr
        · simp only at hp
          subst hp
          simp [result_core_outcome]
        · exact ih2 pr hpr hp

/-! ### Claim theorems -/

/-- C1: over any sequence of `get_template_source` calls within one
process (the single-flight guard serializes concurrent callers racing per
key, so any interleaving of N callers is such a sequence), at most one
filesystem read is performed for a path, and any two calls for that path
observe the identical outcome: the same byte-for-byte source text on
success or an error built from the same cached message on failure (only
the attribution differs). -/
theorem get_template_source_single_read
    (fs : String → Except String (List Char))
    (calls : List (String × Option FileInfo)) (p : String)
    (pr qr : (String × Option FileInfo) × Except LoadError (List Char))
    (hpr : pr ∈ calls.zip (run_calls fs calls []).1)
    (hqr : qr ∈ calls.zip (run_calls fs calls []).1)
    (hp : pr.1.1 = p) (hq : qr.1.1 = p) :
    (run_calls fs calls []).2.2.count p ≤ 1 ∧
      result_core pr.2 = result_core qr.2 := by
  have h := run_calls_spec fs p calls [] (Or.inl rfl)
  refine ⟨?_, ?_⟩
  · have h1 := h.1
    simpa using h1
  · rw [h.2 pr hpr hp, h.2 qr hqr hq]

/-- Witness for C1: two callers for `tpl` (the second from a different
referencing directive) trigger one read and observe the same text. -/
theorem get_template_source_single_read_witness :
    (run_calls fs_demo calls_demo []).2.2.count "tpl" ≤ 1 ∧
      result_core (Except.ok ['b', 'a', 'r'] : Except LoadError (List Char)) =
        result_core (Except.ok ['b', 'a', 'r'] : Except LoadError (List Char)) :=
  get_template_source_single_read fs_demo calls_demo "tpl"
    (("tpl", none), Except.ok ['b', 'a', 'r'])
    (("tpl", some att_demo), Except.ok ['b', 'a', 'r'])
    (List.Mem.head _) (List.Mem.tail _ (List.Mem.head _)) rfl rfl

/-- C6: on a successful read into an empty slot, exactly one trailing
newline is removed when present (content ending in one newline is stored
without it; content ending in two keeps exactly one), and content not
ending in a newline is stored untouched. -/
theorem get_template_source_trims_newline
    (fs : String → Except String (List Char))
    (cache : List (String × Outcome)) (p : String) (att : Option FileInfo)
    (s : List Char) (hnone : cache.lookup p = none) :
    (fs p = .ok (s ++ ['\n']) →
      (get_template_source fs cache p att).1 = .ok s ∧
        ((get_template_source fs cache p att).2.1).lookup p =
          some (.Success s)) ∧
    (s.getLast? ≠ some '\n' → fs p = .ok s →
      (get_template_source fs cache p att).1 = .ok s) := by
  constructor
  · intro hfs
    have h1 := get_template_source_miss fs cache p att hnone
    rw [h1]
    constructor
    · simp [fs_outcome, hfs, trim_newline_concat, outcome_result]
    · simp [fs_outcome, hfs, trim_newline_concat, List.lookup_cons]
  · intro hlast hfs
    have h1 := get_template_source_miss fs cache p att hnone
    rw [h1]
    simp [fs_outcome, hfs, trim_newline_of_not_newline s hlast, outcome_result]

/-- Witness for C6: a file ending in one newline (`one` = `a\n`) is
stored as `a`; a file ending in two (`two` = `a\n\n`) keeps exactly
one. -/
theorem get_template_source_trims_newline_witness :
    (get_template_source fs_nl [] "one" none).1 = .ok ['a'] ∧
      (get_template_source fs_nl [] "two" none).1 = .ok ['a', '\n'] :=
  ⟨((get_template_source_trims_newline fs_nl [] "one" none ['a'] rfl).1
      rfl).1,
   ((get_template_source_trims_newline fs_nl [] "two" none ['a', '\n'] rfl).1
      rfl).1⟩

/-- C7: when the first load of a path fails, the error message — which
embeds the path string and the underlying I/O error text — is cached;
a later call for the same path performs no read and returns an error
carrying that very message, but with the attribution rebuilt from the
later caller's own `import_from`, not the original caller's. -/
theorem load_failure_cached_message_current_attribution
    (fs : String → Except String (List Char))
    (cache : List (String × Outcome)) (p : String)
    (a1 a2 : Option FileInfo) (err : String)
    (hnone : cache.lookup p = none) (hfs : fs p = .error err) :
    get_template_source fs cache p a1 =
      (.error ⟨template_error_msg p err, a1⟩,
        (p, .Failure (template_error_msg p err)) :: cache, [p]) ∧
    get_template_source fs ((p, .Failure (template_error_msg p err)) :: cache)
        p a2 =
      (.error ⟨template_error_msg p err, a2⟩,
        (p, .Failure (template_error_msg p err)) :: cache, []) ∧
    template_error_msg p err =
      "unable to open template file '" ++ p ++ "': " ++ err := by
  refine ⟨?_, ?_, rfl⟩
  · have h1 := get_template_source_miss fs cache p a1 hnone
    rw [h1]
    simp [fs_outcome, hfs, outcome_result]
  · rw [get_template_source_hit fs _ p a2
      (.Failure (template_error_msg p err)) (by simp [List.lookup_cons])]
    rfl

/-- Witness for C7: a missing path fails with the formatted message under
the first caller's (empty) attribution; the second request, issued from a
different referencing directive, reuses the message under its own
attribution and reads nothing. -/
theorem load_failure_cached_message_current_attribution_witness :
    get_template_source fs_missing [] "gone" none =
      (.error ⟨template_error_msg "gone" "io error", none⟩,
        [("gone", .Failure (template_error_msg "gone" "io error"))],
        ["gone"]) ∧
    get_template_source fs_missing
        [("gone", .Failure (template_error_msg "gone" "io error"))]
        "gone" (some att_demo) =
      (.error ⟨template_error_msg "gone" "io error", some att_demo⟩,
        [("gone", .Failure (template_error_msg "gone" "io error"))], []) ∧
    template_error_msg "gone" "io error" =
      "unable to open template file '" ++ "gone" ++ "': " ++ "io error" :=
  load_failure_cached_message_current_attribution fs_missing [] "gone"
    none (some att_demo) "io error" rfl rfl

/-! ### Lemmas about `extension` -/

theorem dotSplitAux_eq_none (l : List Char) (h : '.' ∉ l) :
    dotSplitAux l = none := by
  induction l with
  | nil => rfl
  | cons c rest ih =>
    simp only [List.mem_cons, not_or] at h
    simp only [dotSplitAux, ih h.2]
    rw [if_neg (fun hc : c = '.' => h.1 hc.symm)]

theorem dotSplitAux_append_last (l e : List Char) (he : '.' ∉ e) :
    dotSplitAux (l ++ '.' :: e) = some (l, e) := by
  induction l with
  | nil =>
    simp [List.nil_append, dotSplitAux, dotSplitAux_eq_none e he]
  | cons c rest ih =>
    simp only [List.cons_append, dotSplitAux, List.append_eq]
    rw [ih]

theorem not_mem_cons_of {α : Type _} {a b : α} {l : List α}
    (h1 : a ≠ b) (h2 : a ∉ l) : a ∉ b :: l := by
  simp [List.mem_cons, h1, h2]

theorem not_mem_append_of {α : Type _} {a : α} {l1 l2 : List α}
    (h1 : a ∉ l1) (h2 : a ∉ l2) : a ∉ l1 ++ l2 := by
  simp [List.mem_append, h1, h2]

theorem file_name_no_slash (p : List Char) (h : '/' ∉ p) :
    file_name p = p := by
  have hall : ∀ c ∈ p.reverse, (c != '/') = true := by
    intro c hc
    rw [List.mem_reverse] at hc
    simp only [bne_iff_ne, ne_eq]
    exact fun hcc => h (hcc ▸ hc)
  rw [file_name, List.takeWhile_eq_self_iff.mpr hall, List.reverse_reverse]

/-- C10: for a file name `stem.mid.j` whose final extension `j` is one of
`j2`/`jinja`/`jinja2`, `extension` returns the extension `mid` preceding
it; for `stem.j` with no preceding extension it returns the jinja
extension `j` itself; and for any non-jinja final extension `e` it
returns that extension unchanged. -/
theorem extension_jinja_spec (stem mid j e : List Char)
    (hstem : stem ≠ []) (hsdot : '.' ∉ stem) (hsslash : '/' ∉ stem)
    (hmdot : '.' ∉ mid) (hmslash : '/' ∉ mid)
    (hj : j ∈ JINJA_EXTENSIONS)
    (hejin : e ∉ JINJA_EXTENSIONS) (hedot : '.' ∉ e) (heslash : '/' ∉ e) :
    extension (stem ++ '.' :: mid ++ '.' :: j) = some mid ∧
    extension (stem ++ '.' :: j) = some j ∧
    extension (stem ++ '.' :: e) = some e := by
  have hjchar : '.' ∉ j ∧ '/' ∉ j := by
    simp only [JINJA_EXTENSIONS, List.mem_cons, List.not_mem_nil,
      or_false] at hj
    rcases hj with rfl | rfl | rfl <;> exact ⟨by decide, by decide⟩
  obtain ⟨s0, s', rfl⟩ : ∃ s0 s', stem = s0 :: s' := by
    cases stem with
    | nil => exact absurd rfl hstem
    | cons a b => exact ⟨a, b, rfl⟩
  have hsdot' : '.' ∉ s' := fun hmem => hsdot (List.mem_cons_of_mem _ hmem)
  have hs0 : ('/' : Char) ≠ s0 :=
    fun h => hsslash (List.mem_cons.mpr (Or.inl h))
  have hs' : '/' ∉ s' :=
    fun h => hsslash (List.mem_cons.mpr (Or.inr h))
  have hdotne : ('/' : Char) ≠ '.' := by decide
  refine ⟨?_, ?_, ?_⟩
  · -- stem.mid.j with j a jinja extension: the stem's extension wins
    have hslash2 : '/' ∉ s0 :: (s' ++ '.' :: mid) :=
      not_mem_cons_of hs0
        (not_mem_append_of hs' (not_mem_cons_of hdotne hmslash))
    have hslash1 : '/' ∉ s0 :: (s' ++ '.' :: mid ++ '.' :: j) :=
      not_mem_cons_of hs0
        (not_mem_append_of
          (not_mem_append_of hs' (not_mem_cons_of hdotne hmslash))
          (not_mem_cons_of hdotne hjchar.2))
    have hsplit1 : dotSplit (s0 :: (s' ++ '.' :: mid ++ '.' :: j)) =
        some (s0 :: (s' ++ '.' :: mid), j) := by
      simp only [dotSplit]
      rw [dotSplitAux_append_last (s' ++ '.' :: mid) j hjchar.1]
    have hsplit2 : dotSplit (s0 :: (s' ++ '.' :: mid)) =
        some (s0 :: s', mid) := by
      simp only [dotSplit]
      rw [dotSplitAux_append_last s' mid hmdot]
    simp only [List.cons_append]
    rw [extension, file_name_no_slash _ hslash1]
    simp only [hsplit1]
    rw [if_pos hj]
    simp only [file_stem, hsplit1]
    rw [file_name_no_slash _ hslash2]
    simp only [hsplit2]
  · -- stem.j with j a jinja extension and no preceding extension
    have hslash1 : '/' ∉ s0 :: (s' ++ '.' :: j) :=
      not_mem_cons_of hs0
        (not_mem_append_of hs' (not_mem_cons_of hdotne hjchar.2))
    have hsplit1 : dotSplit (s0 :: (s' ++ '.' :: j)) =
        some (s0 :: s', j) := by
      simp only [dotSplit]
      rw [dotSplitAux_append_last s' j hjchar.1]
    have hsplit2 : dotSplit (s0 :: s') = none := by
      simp only [dotSplit]
      rw [dotSplitAux_eq_none s' hsdot']
    simp only [List.cons_append]
    rw [extension, file_name_no_slash _ hslash1]
    simp only [hsplit1]
    rw [if_pos hj]
    simp only [file_stem, hsplit1]
    rw [file_name_no_slash _ hsslash]
    simp only [hsplit2]
  · -- stem.e with e not a jinja extension: returned unchanged
    have hslash1 : '/' ∉ s0 :: (s' ++ '.' :: e) :=
      not_mem_cons_of hs0
        (not_mem_append_of hs' (not_mem_cons_of hdotne heslash))
    have hsplit1 : dotSplit (s0 :: (s' ++ '.' :: e)) =
        some (s0 :: s', e) := by
      simp only [dotSplit]
      rw [dotSplitAux_append_last s' e hedot]
    simp only [List.cons_append]
    rw [extension, file_name_no_slash _ hslash1]
    simp only [hsplit1]
    rw [if_neg hejin]

/-- C2 counterexample: with A = `{% extends "B" %}` and B =
`{% extends "A" %}`, resolving A does not fail — it returns the completed
map — contradicting the claim that resolving either template fails with a
cyclic-dependency error.  (After A is processed it is already inserted in
the map, so B's `extends "A"` records the distinct edge `(B, A)` and then
finds A's map entry occupied; neither cyclic test fires.) -/
theorem mutual_extends_counterexample :
    find_used_templates env_mutual_extends 10 "A" none =
      some (.ok [("B", ⟨"B-src", [.Extends "A"]⟩),
        ("A", ⟨"A-src", [.Extends "B"]⟩)]) := by
  rfl

/-- C2 amended: resolving either of the mutually-extending templates A
and B succeeds, and the result map's key set is exactly {A, B}; no
cyclic-dependency error is raised, since that error fires only when the
resolved target equals the current path or the identical `(current,
target)` edge is met twice. -/
theorem mutual_extends_amended :
    (find_used_templates env_mutual_extends 10 "A" none =
      some (.ok [("B", ⟨"B-src", [.Extends "A"]⟩),
        ("A", ⟨"A-src", [.Extends "B"]⟩)]) ∧
      [("B", (⟨"B-src", [.Extends "A"]⟩ : Parsed)),
        ("A", ⟨"A-src", [.Extends "B"]⟩)].map Prod.fst = ["B", "A"]) ∧
    (find_used_templates env_mutual_extends 10 "B" none =
      some (.ok [("A", ⟨"A-src", [.Extends "B"]⟩),
        ("B", ⟨"B-src", [.Extends "A"]⟩)]) ∧
      [("A", (⟨"A-src", [.Extends "B"]⟩ : Parsed)),
        ("B", ⟨"B-src", [.Extends "A"]⟩)].map Prod.fst = ["A", "B"]) :=
  ⟨⟨rfl, rfl⟩, ⟨rfl, rfl⟩⟩

/-- C3: a template A whose content is `{% extends "A" %}` fails with a
cyclic-dependency error; the recorded chain is exactly the edges pushed
in traversal order — here the single self-edge — and the message renders
each of them in order, the self-edge as `"A" --> "A"`. -/
theorem self_extends_cycle_error :
    find_used_templates env_self_extends 10 "A" none =
      some (.error (.cyclic [("A", "A")])) ∧
    cyclic_message [("A", "A")] = ["\"A\" --> \"A\""] :=
  ⟨rfl, rfl⟩

/-- C4: with A = `{% include "B" %}` and B = `{% include "A" %}`,
resolution starting from A terminates without error and the resulting
map's key set is exactly {A, B}: mutual inclusion never raises a
cyclic-dependency error. -/
theorem mutual_include_terminates :
    find_used_templates env_mutual_include 10 "A" none =
      some (.ok [("B", ⟨"B-src", [.Include "A"]⟩),
        ("A", ⟨"A-src", [.Include "B"]⟩)]) ∧
    [("B", (⟨"B-src", [.Include "A"]⟩ : Parsed)),
      ("A", ⟨"A-src", [.Include "B"]⟩)].map Prod.fst = ["B", "A"] :=
  ⟨rfl, rfl⟩

/-- C5: in the nested sweep (`top = false`) an `extends`, `import` or
`macro` node is ignored — state unchanged, no edge recorded, no target
scheduled, no failure — while `include` is interpreted identically at any
depth.  Concretely, a template whose only `extends` sits inside an
`{% if %}` branch resolves successfully with no recorded edge and no
fetch of the extends target (which does not even exist). -/
theorem non_top_directives_ignored :
    (∀ (env : Env) (cur p : String) (st : WState) (ns : List Node),
      processNode env cur false st (.Extends p) = .ok (st, []) ∧
      processNode env cur false st (.Import p) = .ok (st, []) ∧
      processNode env cur false st (.MacroDef ns) = .ok (st, []) ∧
      processNode env cur false st (.Include p) =
        processNode env cur true st (.Include p)) ∧
    find_raw env_nested_extends 10 "A" none =
      some (.ok ⟨[("A", ⟨"A-src", [.If [[.Extends "B"]]]⟩)], [], [], ["A"]⟩) :=
  ⟨fun _ _ _ _ _ => ⟨rfl, rfl, rfl, rfl⟩, rfl⟩

/-- C8: any failure while processing a scheduled template (load,
path-resolution, parse or cycle alike surface through
`processTemplate`) is terminal for the whole driver loop: the loop
returns exactly that error, never a map — regardless of the entries
already accumulated in `st.map`, which are thereby discarded. -/
theorem failures_are_terminal (env : Env) (fuel : Nat) (st : WState)
    (p s : String) (rest : List (String × String)) (e : CompileError)
    (hcheck : st.check = (p, s) :: rest)
    (hfail : processTemplate env fuel p s { st with check := rest } =
      some (.error e)) :
    checkLoop env (fuel + 1) st = some (.error e) ∧
      ∀ m, checkLoop env (fuel + 1) st ≠ some (.ok m) := by
  have h1 : checkLoop env (fuel + 1) st = some (.error e) := by
    simp only [checkLoop, hcheck, hfail]
  refine ⟨h1, fun m hm => ?_⟩
  rw [h1] at hm
  simp at hm

/-- Witness for C8: template A includes the unloadable B while the map
already holds an earlier entry; the whole run returns the load error. -/
theorem failures_are_terminal_witness :
    checkLoop env_midway_failure 6 st_midway =
      some (.error (.msg "B not found")) :=
  (failures_are_terminal env_midway_failure 5 st_midway "A" "A-src" []
    (.msg "B not found") rfl rfl).1

/-- C9: a template `A` containing `{% include "A" %}` is scheduled a
second time, because A is inserted into the map only after its node list
is fully scanned: the run needs two driver iterations (fuel 2 is not
enough, fuel 3 is), the ghost load log shows A's source fetched twice,
and the call nevertheless terminates with A mapped to the parse of its
own source. -/
theorem self_include_reprocessed :
    find_raw env_self_include 2 "A" none = none ∧
    find_raw env_self_include 3 "A" none =
      some (.ok ⟨[("A", ⟨"A-src", [.Include "A"]⟩)], [], [], ["A", "A"]⟩) ∧
    find_used_templates env_self_include 3 "A" none =
      some (.ok [("A", ⟨"A-src", [.Include "A"]⟩)]) :=
  ⟨rfl, rfl, rfl⟩

/-- Witness for C10: `foo.html.j2` yields `html`, `foo.j2` yields `j2`,
and `foo.txt` yields `txt`. -/
theorem extension_jinja_spec_witness :
    extension ("foo".toList ++ '.' :: "html".toList ++ '.' :: "j2".toList) =
      some "html".toList ∧
    extension ("foo".toList ++ '.' :: "j2".toList) = some "j2".toList ∧
    extension ("foo".toList ++ '.' :: "txt".toList) = some "txt".toList :=
  extension_jinja_spec "foo".toList "html".toList "j2".toList "txt".toList
    (by decide) (by decide) (by decide) (by decide) (by decide)
    (by decide) (by decide) (by decide) (by decide)

end Rinja
